import Mathlib

/-!
Verification of the live-events aggregation backend (the `/api/shows`
pipeline).  The JavaScript source is shallowly embedded: pure helper
functions become Lean functions over `Int`/`Nat`/`String`/`List`,
JavaScript numbers that stay integral are `Int`, fractional query values
are `Rat`, `null`/`undefined` become `Option`, thrown errors become
`Except`, and ECMAScript date arithmetic (`Date.UTC`, `getUTCDay`,
`toISOString`, ISO-format `Date.parse`) is modelled with exact civil
calendar arithmetic in milliseconds since the Unix epoch.
`Date.parse` of a zone-less date-time literal depends on the host time
zone; that host zone is threaded through as an explicit offset
parameter (`host`, in milliseconds, wall = UTC + host) so that nothing
is hidden.  IANA time zones reached through `Intl.DateTimeFormat` are
modelled as functions from an instant to the millisecond encoding of
its wall-clock fields in that zone.
-/

namespace LiveEvents

/-! ### ECMAScript calendar arithmetic -/

/-- Proleptic Gregorian leap-year test, as used by ECMAScript time values. -/
def isLeapYear (y : Int) : Bool :=
  (y % 4 == 0 && y % 100 != 0) || (y % 400 == 0)

/-- Number of days in month `m` (1-12) of year `y`. -/
def daysInMonth (y m : Int) : Int :=
  if m = 2 then (if isLeapYear y then 29 else 28)
  else if m = 4 || m = 6 || m = 9 || m = 11 then 30
  else 31

/-- Days since 1970-01-01 of the civil date `y-m-d` (m in 1..12),
by the standard era-based civil-calendar algorithm. -/
def daysFromCivil (y m d : Int) : Int :=
  let yr := y - (if m ≤ 2 then 1 else 0)
  let era := Int.fdiv yr 400
  let yoe := yr - era * 400
  let mp := m + (if m > 2 then -3 else 9)
  let doy := Int.fdiv (153 * mp + 2) 5 + d - 1
  let doe := yoe * 365 + Int.fdiv yoe 4 - Int.fdiv yoe 100 + doy
  era * 146097 + doe - 719468

/-- Civil date `(y, m, d)` of the day `z` days after 1970-01-01
(inverse of `daysFromCivil`). -/
def civilFromDays (z : Int) : Int × Int × Int :=
  let z := z + 719468
  let era := Int.fdiv z 146097
  let doe := z - era * 146097
  let yoe := Int.fdiv (doe - Int.fdiv doe 1460 + Int.fdiv doe 36524 - Int.fdiv doe 146096) 365
  let y := yoe + era * 400
  let doy := doe - (365 * yoe + Int.fdiv yoe 4 - Int.fdiv yoe 100)
  let mp := Int.fdiv (5 * doy + 2) 153
  let d := doy - Int.fdiv (153 * mp + 2) 5 + 1
  let m := mp + (if mp < 10 then 3 else -9)
  (y + (if m ≤ 2 then 1 else 0), m, d)

/-- `Date.UTC(y, monthIndex, d, h, mi, s)` in milliseconds: ECMAScript
MakeDay/MakeDate semantics, with the month index normalised into the
year and all remaining out-of-range components rolling over linearly. -/
def jsDateUTC (y monthIndex d h mi s : Int) : Int :=
  let ym := y + Int.fdiv monthIndex 12
  let mn := Int.emod monthIndex 12
  (daysFromCivil ym (mn + 1) 1 + (d - 1)) * 86400000
    + h * 3600000 + mi * 60000 + s * 1000

/-- `new Date(t).getUTCDay()`: 0 = Sunday .. 6 = Saturday
(1970-01-01 was a Thursday, day 4). -/
def jsGetUTCDay (t : Int) : Int :=
  Int.emod (Int.fdiv t 86400000 + 4) 7

/-- Decimal rendering of `n` left-padded with zeros to width `w`. -/
def padDigits (w : Nat) (n : Nat) : String :=
  let s := toString n
  String.mk (List.replicate (w - s.length) '0') ++ s

/-- `new Date(ms).toISOString()`: `YYYY-MM-DDTHH:MM:SS.sssZ`, with the
ECMAScript expanded-year form for years outside 0..9999. -/
def toISOString (ms : Int) : String :=
  let days := Int.fdiv ms 86400000
  let rem := (ms - days * 86400000).toNat
  let c := civilFromDays days
  let y := c.1
  let mo := c.2.1
  let d := c.2.2
  let yearStr :=
    if y < 0 then "-" ++ padDigits 6 (-y).toNat
    else if y > 9999 then "+" ++ padDigits 6 y.toNat
    else padDigits 4 y.toNat
  yearStr ++ "-" ++ padDigits 2 mo.toNat ++ "-" ++ padDigits 2 d.toNat
    ++ "T" ++ padDigits 2 (rem / 3600000) ++ ":" ++ padDigits 2 (rem / 60000 % 60)
    ++ ":" ++ padDigits 2 (rem / 1000 % 60) ++ "." ++ padDigits 3 (rem % 1000) ++ "Z"

/-- A string `s` is a valid ISO timestamp in the sense this backend
produces them: it is the `toISOString` rendering of some instant. -/
def IsIsoRendering (s : String) : Prop := ∃ ms : Int, s = toISOString ms

/-! ### ISO-format `Date.parse` -/

/-- Read exactly `k` ASCII digits, accumulating their value. -/
def readDigits : Nat → Nat → List Char → Option (Nat × List Char)
  | 0, acc, cs => some (acc, cs)
  | k + 1, acc, c :: cs =>
      if c.isDigit then readDigits k (acc * 10 + (c.toNat - 48)) cs else none
  | _ + 1, _, [] => none

/-- Time-of-day and zone tail of an ISO date-time literal:
`HH:MM[:SS[.sss]]` followed by nothing (host-local), `Z`, or `±HH:MM`.
Returns `(ms-of-day, zone-offset-in-ms or none for host-local)`. -/
def parseIsoTimeTail (cs : List Char) : Option (Int × Option Int) :=
  match readDigits 2 0 cs with
  | none => none
  | some (h, cs) =>
    match cs with
    | ':' :: cs =>
      match readDigits 2 0 cs with
      | none => none
      | some (mi, cs) =>
        let secPart : Option (Nat × Nat × List Char) :=
          match cs with
          | ':' :: cs2 =>
            match readDigits 2 0 cs2 with
            | none => none
            | some (ss, cs3) =>
              match cs3 with
              | '.' :: cs4 =>
                match readDigits 3 0 cs4 with
                | none => none
                | some (msec, cs5) => some (ss, msec, cs5)
              | _ => some (ss, 0, cs3)
          | _ => some (0, 0, cs)
        match secPart with
        | none => none
        | some (ss, msec, rest) =>
          if h ≤ 23 && mi ≤ 59 && ss ≤ 59 then
            let dayMs : Int := (h * 3600000 + mi * 60000 + ss * 1000 + msec : Nat)
            match rest with
            | [] => some (dayMs, none)
            | ['Z'] => some (dayMs, some 0)
            | sign :: rest2 =>
              if sign = '+' || sign = '-' then
                match readDigits 2 0 rest2 with
                | none => none
                | some (oh, rest3) =>
                  match rest3 with
                  | ':' :: rest4 =>
                    match readDigits 2 0 rest4 with
                    | some (om, []) =>
                      if oh ≤ 23 && om ≤ 59 then
                        let off : Int := (oh * 3600000 + om * 60000 : Nat)
                        some (dayMs, some (if sign = '-' then -off else off))
                      else none
                    | _ => none
                  | _ => none
              else none
          else none
    | _ => none

/-- `Date.parse` on the ECMAScript Date Time String Format
(`YYYY[-MM[-DD[THH:MM[:SS[.sss]]][Z|±HH:MM]]]`), the only format with
specified behaviour and the format every adapter in this backend emits.
Date-only forms are UTC; a date-time without zone designator is host
local time, resolved with the explicit host offset (wall = UTC + host).
Returns the time value in ms, or `none` for NaN (invalid date). -/
def jsDateParse (host : Int) (str : String) : Option Int :=
  match readDigits 4 0 str.toList with
  | none => none
  | some (y, cs) =>
    match cs with
    | [] => some (jsDateUTC y 0 1 0 0 0)
    | '-' :: cs =>
      match readDigits 2 0 cs with
      | none => none
      | some (mo, cs) =>
        if mo < 1 || mo > 12 then none
        else
          match cs with
          | [] => some (jsDateUTC y (mo - 1) 1 0 0 0)
          | '-' :: cs =>
            match readDigits 2 0 cs with
            | none => none
            | some (d, cs) =>
              if d < 1 || (d : Int) > daysInMonth y mo then none
              else
                let dateMs := jsDateUTC y ((mo : Int) - 1) d 0 0 0
                match cs with
                | [] => some dateMs
                | 'T' :: cs =>
                  match parseIsoTimeTail cs with
                  | none => none
                  | some (dayMs, zone) =>
                    match zone with
                    | some off => some (dateMs + dayMs - off)
                    | none => some (dateMs + dayMs - host)
                | _ => none
          | _ => none
    | _ => none

/-! ### Canonical event model (the fields the verified claims read) -/

/-- The `start` object of a canonical event; adapters may omit either
field (`none` covers both JavaScript `null` and `undefined`). -/
structure StartField where
  localTime : Option String := none
  utc : Option String := none
deriving DecidableEq

/-- A canonical event, restricted to the fields read by the weekday
cutoff, the global sort, and the per-provider merge: `id`, `source`,
`start` and `distance`.  `distance` is `none` when missing or not a
finite number. -/
structure Event where
  id : Option String := none
  source : Option String := none
  start : Option StartField := none
  distance : Option ℚ := none
deriving DecidableEq

/-- JavaScript string truthiness: `some s` for a non-empty string. -/
def jsTruthy : Option String → Option String
  | some s => if s = "" then none else some s
  | none => none

/-- `String.prototype.trim` whitespace (the ASCII part, which is all
the feeds at hand contain). -/
def isJsWhitespace (c : Char) : Bool :=
  c = ' ' || c = '\t' || c = '\n' || c = '\r' || c = '\x0b' || c = '\x0c'

/-- `String.prototype.trim`. -/
def jsTrim (s : String) : String :=
  String.mk ((((s.toList.dropWhile isJsWhitespace).reverse.dropWhile isJsWhitespace).reverse))

/-- `String.prototype.toLowerCase` (ASCII case mapping). -/
def jsToLower (s : String) : String :=
  String.mk (s.toList.map (fun c =>
    if 'A' ≤ c && c ≤ 'Z' then Char.ofNat (c.toNat + 32) else c))

/-! ### Weekday-evening-cutoff business rule -/

def WEEKDAY_CUTOFF_HOUR : Int := 16

def WEEKDAY_CUTOFF_MINUTE : Int := 30

/-- `getEventStartValue`: the first of `start.local`, `start.utc` that
is a string with non-blank content, else `''`. -/
def getEventStartValue (e : Event) : String :=
  match e.start with
  | some st =>
    match st.localTime with
    | some l => if jsTrim l ≠ "" then l else
        (match st.utc with
         | some u => if jsTrim u ≠ "" then u else ""
         | none => "")
    | none =>
      match st.utc with
      | some u => if jsTrim u ≠ "" then u else ""
      | none => ""
  | none => ""

/-- The capture groups of `/(\d{4})-(\d{2})-(\d{2})(?:[Tt ](\d{2}):(\d{2}))?/`. -/
structure LocalParts where
  year : Int
  month : Int
  day : Int
  hour : Option Int := none
  minute : Option Int := none
deriving DecidableEq

/-- Attempt the date pattern at the head of `cs`: four digits, `-`, two
digits, `-`, two digits, then optionally `[Tt ]` two digits `:` two
digits (the optional group is dropped, not the match, when it fails). -/
def matchLocalPartsAt (cs : List Char) : Option LocalParts :=
  match readDigits 4 0 cs with
  | none => none
  | some (y, cs) =>
    match cs with
    | '-' :: cs =>
      match readDigits 2 0 cs with
      | none => none
      | some (mo, cs) =>
        match cs with
        | '-' :: cs =>
          match readDigits 2 0 cs with
          | none => none
          | some (d, cs) =>
            let timePart : Option (Int × Int) :=
              match cs with
              | c :: cs2 =>
                if c = 'T' || c = 't' || c = ' ' then
                  match readDigits 2 0 cs2 with
                  | none => none
                  | some (h, cs3) =>
                    match cs3 with
                    | ':' :: cs4 =>
                      match readDigits 2 0 cs4 with
                      | none => none
                      | some (mi, _) => some ((h : Int), (mi : Int))
                    | _ => none
                else none
              | [] => none
            match timePart with
            | some (h, mi) => some ⟨y, mo, d, some h, some mi⟩
            | none => some ⟨y, mo, d, none, none⟩
        | _ => none
    | _ => none

/-- Leftmost match of the date pattern anywhere in the string. -/
def scanLocalParts : List Char → Option LocalParts
  | [] => none
  | c :: cs =>
    match matchLocalPartsAt (c :: cs) with
    | some p => some p
    | none => scanLocalParts cs

/-- `parseEventLocalParts`: regex-search the start string for a civil
date and optional hour:minute (the `Number(...)` conversions of the
digit groups are always finite, so the finiteness guard never fires). -/
def parseEventLocalParts (value : String) : Option LocalParts :=
  if value = "" then none else scanLocalParts value.toList

/-- `isWeekdayBeforeCutoff`: an event is hidden when it is not from a
named non-Ticketmaster provider, its start parses to a weekday civil
date, and an explicit hour:minute strictly before 16:30 is present. -/
def isWeekdayBeforeCutoff (e : Event) : Bool :=
  if (match e.source with
      | some s => s ≠ "" && s ≠ "ticketmaster"
      | none => false) then false
  else
    let raw := getEventStartValue e
    if raw = "" then false
    else
      match parseEventLocalParts raw with
      | none => false
      | some parts =>
        let weekday := jsGetUTCDay (jsDateUTC parts.year (parts.month - 1) parts.day 0 0 0)
        let isWeekday := 1 ≤ weekday && weekday ≤ 5
        if !isWeekday then false
        else
          match parts.hour, parts.minute with
          | some h, some mi =>
            if h < WEEKDAY_CUTOFF_HOUR then true
            else if h = WEEKDAY_CUTOFF_HOUR && mi < WEEKDAY_CUTOFF_MINUTE then true
            else false
          | _, _ => false

/-- `applyWeekdayCutoff`: keep the events the rule does not hide. -/
def applyWeekdayCutoff (events : List Event) : List Event :=
  events.filter (fun e => !isWeekdayBeforeCutoff e)

/-! ### Global sort (`sortEventsByTimeAndDistance`) -/

/-- The comparator's time key: `a.start && a.start.utc ?
Date.parse(a.start.utc) : (a.start && a.start.local ?
Date.parse(a.start.local) : Infinity)`.  `none` stands for the two
non-finite outcomes (NaN from a failed parse, Infinity from a missing
start), which the comparator treats identically. -/
def resolvedTimeMs (host : Int) (e : Event) : Option Int :=
  match e.start with
  | none => none
  | some st =>
    match jsTruthy st.utc with
    | some u => jsDateParse host u
    | none =>
      match jsTruthy st.localTime with
      | some l => jsDateParse host l
      | none => none

/-- The distance tie-break: `Number.isFinite(distance) ? distance :
Infinity`, subtracted.  (When both distances are `Infinity` the
JavaScript comparator returns NaN, which `Array.prototype.sort`
coerces to `+0`, i.e. `Ordering.eq`.) -/
def compareDistance (a b : Event) : Ordering :=
  match a.distance, b.distance with
  | some x, some y => if x < y then .lt else if y < x then .gt else .eq
  | some _, none => .lt
  | none, some _ => .gt
  | none, none => .eq

/-- The sign of the `/api/shows` sort comparator. -/
def compareEvents (host : Int) (a b : Event) : Ordering :=
  match resolvedTimeMs host a, resolvedTimeMs host b with
  | some ta, some tb =>
    if ta ≠ tb then (if ta < tb then .lt else .gt) else compareDistance a b
  | some _, none => .lt
  | none, some _ => .gt
  | none, none => compareDistance a b

/-- Non-strict order induced by the comparator (`cmp(a,b) <= 0`). -/
def eventLE (host : Int) (a b : Event) : Bool :=
  compareEvents host a b ≠ .gt

/-- `sortEventsByTimeAndDistance`: a stable sort of a copy of the input
by the comparator.  `Array.prototype.sort` is stable, and a stable sort
with respect to a total transitive comparator has a unique output, so
it is modelled by stable insertion sort over `eventLE`. -/
def sortEventsByTimeAndDistance (host : Int) (events : List Event) : List Event :=
  List.insertionSort (fun a b => eventLE host a b = true) events

/-! ### Query-parameter normalisation for `/api/shows` -/

/-- The numeric interpretation of one query parameter: `absent` for
`undefined`/`null`/`''`, `nan` for a string whose numeric conversion is
not finite, `num v` for a finite value. -/
inductive JsQuery (α : Type) where
  | absent : JsQuery α
  | nan : JsQuery α
  | num (v : α) : JsQuery α
deriving DecidableEq

/-- `parseNumberQuery`: `null` unless the parameter has a finite
numeric value. -/
def parseNumberQuery : JsQuery ℚ → Option ℚ
  | .absent => none
  | .nan => none
  | .num v => some v

def TICKETMASTER_MAX_RADIUS_MILES : ℚ := 150

def TICKETMASTER_DEFAULT_RADIUS : ℚ := 50

def TICKETMASTER_DEFAULT_DAYS : Int := 14

/-- `clampDays`: default 14 when absent or not parseable as an
integer, otherwise clamped to the range 1..31. -/
def clampDays : JsQuery Int → Int
  | .absent => TICKETMASTER_DEFAULT_DAYS
  | .nan => TICKETMASTER_DEFAULT_DAYS
  | .num n => min (max n 1) 31

/-- `Math.round`: round half toward positive infinity. -/
def jsRound (q : ℚ) : Int := Int.floor (q + 1 / 2)

/-- `normalizeCoordinate(value, digits)`: the input is the `parseFloat`
view of the raw parameter (`none` = missing or NaN); a finite value is
rounded to `digits` decimal places. -/
def normalizeCoordinate (v : Option ℚ) (digits : Nat) : Option ℚ :=
  match v with
  | none => none
  | some q =>
    let factor : ℚ := (10 : ℚ) ^ digits
    some (jsRound (q * factor) / factor)

/-- The radius normalisation inlined in the `/api/shows` handler:
positive finite values are clamped to 1..150 miles, everything else
falls back to the 50-mile default. -/
def normalizeRadius (radius : JsQuery ℚ) : ℚ :=
  match parseNumberQuery radius with
  | some r =>
    if r > 0 then min (max r 1) TICKETMASTER_MAX_RADIUS_MILES
    else TICKETMASTER_DEFAULT_RADIUS
  | none => TICKETMASTER_DEFAULT_RADIUS

/-! ### Datasource fetch orchestration -/

/-- Per-category (segment) summary entries produced by the structured
API adapter. -/
structure SegmentSummary where
  key : String
  description : String
  ok : Bool
  status : Option Int := none
  total : Option Nat := none
  requestUrl : Option String := none
  rawTotal : Option Int := none
  error : Option String := none
deriving DecidableEq

/-- A thrown JavaScript error, with the `status`/`code`/`segments`
fields this backend attaches to its typed errors. -/
structure JsError where
  message : String
  status : Option Int := none
  code : Option String := none
  segments : Option (List SegmentSummary) := none
deriving DecidableEq

/-- A provider configuration record, reduced to the fields the
orchestrator reads. -/
structure Datasource where
  id : String
  name : String
  type : String
  enabled : Bool
deriving DecidableEq

/-- A successful `handler.fetch` result. -/
structure FetchOk where
  events : List Event
  segments : List SegmentSummary := []
  cached : Bool := false
deriving DecidableEq

/-- Per-provider summary rows of the `/api/shows` response. -/
structure SourceSummary where
  id : String
  name : String
  type : String
  ok : Bool
  total : Option Nat := none
  status : Option (Option Int) := none
  error : Option String := none
deriving DecidableEq

/-- What `runDatasourceFetch` resolves with. -/
structure FetchResult where
  ok : Bool
  events : List Event
  segments : List SegmentSummary
  cached : Bool
  summary : SourceSummary
  error : Option JsError := none
deriving DecidableEq

/-- `runDatasourceFetch(source, context)`.  `handlerResult` is the
behaviour of `DATASOURCE_HANDLERS[source.type].fetch`: `none` when the
type has no handler, otherwise the settled outcome of the fetch.  The
function never throws: a rejection is converted into an `ok: false`
result carrying a summary with the error message. -/
def runDatasourceFetch (handlerResult : Option (Except JsError FetchOk))
    (source : Datasource) : FetchResult :=
  match handlerResult with
  | none =>
    { ok := false, events := [], segments := [], cached := false,
      summary := { id := source.id, name := source.name, type := source.type,
                   ok := false, error := some "unsupported_source_type" } }
  | some (.ok result) =>
    { ok := true, events := result.events, segments := result.segments,
      cached := result.cached,
      summary := { id := source.id, name := source.name, type := source.type,
                   ok := true, total := some result.events.length } }
  | some (.error err) =>
    { ok := false, events := [], segments := [], cached := false,
      summary := { id := source.id, name := source.name, type := source.type,
                   ok := false, status := some err.status,
                   error := some (if err.message = "" then "Request failed" else err.message) },
      error := some err }

/-- The accumulator of the `results.forEach` loop in `/api/shows`. -/
structure CollectState where
  events : List Event
  summaries : List SourceSummary
  anySuccess : Bool
  segments : Option (List SegmentSummary)
  cached : Bool
deriving DecidableEq

/-- One iteration of the collection loop. -/
def collectStep (st : CollectState) (r : FetchResult) : CollectState :=
  let st := { st with summaries := st.summaries ++ [r.summary] }
  if r.ok then
    { st with
      anySuccess := true,
      cached := st.cached && r.cached,
      events := st.events ++ r.events,
      segments :=
        if st.segments = none && r.segments ≠ [] then some r.segments else st.segments }
  else { st with cached := false }

/-- The whole collection loop (initial state: no events, no summaries,
no success seen, no segments, `cached = true`). -/
def collectResults (results : List FetchResult) : CollectState :=
  results.foldl collectStep ⟨[], [], false, none, true⟩

/-- The `/api/shows` responses, by status: 400 `missing_coordinates`,
500 `no_enabled_sources`, 500 `ticketmaster_api_key_missing`,
502 `datasource_fetch_failed`, or the 200 payload. -/
inductive ShowsResponse where
  | badRequest : ShowsResponse
  | noEnabledSources : ShowsResponse
  | apiKeyMissing (sources : List SourceSummary) : ShowsResponse
  | fetchFailed (sources : List SourceSummary) : ShowsResponse
  | success (source : String) (cached : Bool) (radiusMiles : ℚ)
      (lookaheadDays : Int) (events : List Event)
      (sources : List SourceSummary)
      (segments : Option (List SegmentSummary)) : ShowsResponse
deriving DecidableEq

/-- HTTP status of a response. -/
def ShowsResponse.status : ShowsResponse → Nat
  | .badRequest => 400
  | .noEnabledSources => 500
  | .apiKeyMissing _ => 500
  | .fetchFailed _ => 502
  | .success _ _ _ _ _ _ _ => 200

/-- The `results.find(result => result?.error?.code ===
'ticketmaster_api_key_missing')` predicate. -/
def resultKeyMissing (r : FetchResult) : Bool :=
  match r.error with
  | some e => e.code = some "ticketmaster_api_key_missing"
  | none => false

/-- The `GET /api/shows` handler.  `handlers` gives each datasource's
`handler.fetch` behaviour (see `runDatasourceFetch`); `lat`/`lon`
are the `parseFloat` views of the raw coordinate parameters. -/
def apiShows (host : Int) (handlers : Datasource → Option (Except JsError FetchOk))
    (sources : List Datasource)
    (lat lon : Option ℚ) (radius : JsQuery ℚ) (days : JsQuery Int) : ShowsResponse :=
  match normalizeCoordinate lat 4, normalizeCoordinate lon 4 with
  | some _, some _ =>
    let radiusMiles := normalizeRadius radius
    let lookahead0 := clampDays days
    let lookaheadDays := if lookahead0 = 0 then TICKETMASTER_DEFAULT_DAYS else lookahead0
    let enabledSources := sources.filter (·.enabled)
    if enabledSources.isEmpty then .noEnabledSources
    else
      let results := enabledSources.map (fun s => runDatasourceFetch (handlers s) s)
      let st := collectResults results
      if !st.anySuccess then
        if results.any resultKeyMissing then
          .apiKeyMissing st.summaries
        else .fetchFailed st.summaries
      else
        .success
          (match enabledSources with
           | [s] => s.id
           | _ => "mixed")
          st.cached radiusMiles lookaheadDays
          (sortEventsByTimeAndDistance host (applyWeekdayCutoff st.events))
          st.summaries st.segments
  | _, _ => .badRequest

/-! ### Structured-API adapter: per-category segment merge -/

/-- A segment descriptor (`{ key, description }`). -/
structure TmSegment where
  key : String
  description : String
deriving DecidableEq

/-- The summary part of a successful `fetchTicketmasterSegment`. -/
structure TmSegmentOkSummary where
  key : String
  description : String
  status : Int
  total : Nat
  requestUrl : String
  rawTotal : Option Int := none
deriving DecidableEq

/-- One settled entry of the `Promise.all(segments.map(...))`:
a rejection is caught into `{ error, segment }`. -/
inductive TmSegmentResult where
  | failure (segment : TmSegment) (error : JsError) (requestUrl : Option String) : TmSegmentResult
  | success (summary : TmSegmentOkSummary) (events : List Event) : TmSegmentResult
deriving DecidableEq

/-- The summary row the merge loop pushes for one segment result. -/
def tmSegmentSummary : TmSegmentResult → SegmentSummary
  | .failure segment error requestUrl =>
    { key := segment.key, description := segment.description, ok := false,
      status := error.status,
      error := some (if error.message = "" then "Request failed" else error.message),
      requestUrl := requestUrl }
  | .success summary _ =>
    { key := summary.key, description := summary.description, ok := true,
      status := some summary.status, total := some summary.total,
      requestUrl := some summary.requestUrl, rawTotal := summary.rawTotal }

/-- All summary rows, in segment order. -/
def tmSegmentSummaries (rs : List TmSegmentResult) : List SegmentSummary :=
  rs.map tmSegmentSummary

/-- The inner loop over one successful segment's events: skip events
with a null id, insert into the id-keyed map only when the id is new
(first occurrence wins), preserving insertion order. -/
def tmCombineEvents (combined : List Event) (events : List Event) : List Event :=
  events.foldl
    (fun acc ev =>
      match ev.id with
      | none => acc
      | some k => if acc.any (fun e => e.id = some k) then acc else acc ++ [ev])
    combined

/-- The concatenation of the successful segments' events, in order. -/
def tmOkEvents (rs : List TmSegmentResult) : List Event :=
  rs.flatMap (fun r => match r with | .success _ events => events | .failure _ _ _ => [])

/-- Whether at least one segment succeeded. -/
def tmAnySegmentOk (rs : List TmSegmentResult) : Bool :=
  rs.any (fun r => match r with | .success _ _ => true | .failure _ _ _ => false)

/-- The typed error thrown when every segment failed. -/
def ticketmasterFetchFailedError (summaries : List SegmentSummary) : JsError :=
  { message := "Ticketmaster fetch failed", status := some 502,
    code := some "ticketmaster_fetch_failed", segments := some summaries }

/-- The typed error thrown when the API key is absent. -/
def ticketmasterMissingKeyError : JsError :=
  { message := "Ticketmaster API key missing", status := some 500,
    code := some "ticketmaster_api_key_missing" }

/-- The merge stage of `fetchTicketmasterEvents`: walk the settled
segment results, accumulate per-category summaries, merge events by id
(first occurrence wins); if no segment succeeded throw the typed
502 error, else return the combined list and the summaries. -/
def mergeTicketmasterSegments (rs : List TmSegmentResult) :
    Except JsError (List Event × List SegmentSummary) :=
  let combined := rs.foldl
    (fun acc r =>
      match r with
      | .failure _ _ _ => acc
      | .success _ events => tmCombineEvents acc events) []
  if !tmAnySegmentOk rs then .error (ticketmasterFetchFailedError (tmSegmentSummaries rs))
  else .ok (combined, tmSegmentSummaries rs)

/-- `fetchTicketmasterEvents`, reduced to the control flow the claims
read: the missing-credential gate and the segment merge.  The cache
fast path and the network layer are behind `segmentResults`. -/
def fetchTicketmasterEvents (apiKey : String) (segmentResults : List TmSegmentResult) :
    Except JsError (List Event × List SegmentSummary) :=
  if apiKey = "" then .error ticketmasterMissingKeyError
  else mergeTicketmasterSegments segmentResults

/-! ### Adapter start-field construction -/

/-- The `start.local`/`start.utc` construction of
`formatTicketmasterEvent` (inputs: the provider's `dates.start`
fields).  `local` is the re-rendering of `dateTime`, or of
`localDate` + `T` + (`localTime` or `00:00:00`), when that string
parses; `utc` re-renders `dateTime` and *throws* (modelled as
`.error ()`) when `dateTime` is present but unparseable, because
`new Date(invalid).toISOString()` raises a RangeError. -/
def tmStartField (host : Int) (dateTime localDate localTime : Option String) :
    Except Unit StartField :=
  let localDateTime : Option String :=
    match jsTruthy dateTime with
    | some dt => some dt
    | none =>
      match jsTruthy localDate with
      | some ld =>
        some (ld ++ (match jsTruthy localTime with
                     | some lt => "T" ++ lt
                     | none => "T00:00:00"))
      | none => none
  let localIso : Option String :=
    match localDateTime with
    | some s => (jsDateParse host s).map toISOString
    | none => none
  match jsTruthy dateTime with
  | some dt =>
    match jsDateParse host dt with
    | some ms => .ok ⟨localIso, some (toISOString ms)⟩
    | none => .error ()
  | none => .ok ⟨localIso, none⟩

/-- The `start` object of `parseRssEventItem`:
`{ local: startIso || null, utc: startIso || null }`. -/
def rssStart (startIso : Option String) : StartField :=
  ⟨jsTruthy startIso, jsTruthy startIso⟩

/-! ### iCal date-time resolution -/

/-- The zone designator group of the iCal date-time pattern. -/
inductive IcalZoneTok where
  | absent : IcalZoneTok
  | zulu : IcalZoneTok
  | offset (negative : Bool) (hh mm : Nat) : IcalZoneTok
deriving DecidableEq

/-- The captures of
`/^(\d{4})(\d{2})(\d{2})(?:T(\d{2})(\d{2})(\d{2})?)?(Z|[+-]\d{4})?$/`. -/
structure IcalMatch where
  year : Nat
  month : Nat
  day : Nat
  time : Option (Nat × Nat × Nat) := none
  zone : IcalZoneTok := .absent
deriving DecidableEq

/-- Match the zone designator against the rest of the input; the
pattern is anchored, so anything left over fails the whole match. -/
def icalMatchZone (cs : List Char) : Option IcalZoneTok :=
  match cs with
  | [] => some .absent
  | ['Z'] => some .zulu
  | sign :: rest =>
    if sign = '+' || sign = '-' then
      match readDigits 2 0 rest with
      | none => none
      | some (hh, rest2) =>
        match readDigits 2 0 rest2 with
        | some (mm, []) => some (.offset (sign = '-') hh mm)
        | _ => none
    else none

/-- The anchored iCal date-time pattern.  Every group has a fixed
width, so the regex has no backtracking alternatives: the optional
seconds group is taken exactly when two digits follow. -/
def icalMatch (value : String) : Option IcalMatch :=
  match readDigits 4 0 value.toList with
  | none => none
  | some (y, cs) =>
    match readDigits 2 0 cs with
    | none => none
    | some (mo, cs) =>
      match readDigits 2 0 cs with
      | none => none
      | some (d, cs) =>
        match cs with
        | 'T' :: cs2 =>
          match readDigits 2 0 cs2 with
          | none => none
          | some (h, cs3) =>
            match readDigits 2 0 cs3 with
            | none => none
            | some (mi, cs4) =>
              match readDigits 2 0 cs4 with
              | some (ss, cs5) =>
                match icalMatchZone cs5 with
                | some z => some ⟨y, mo, d, some (h, mi, ss), z⟩
                | none =>
                  match icalMatchZone cs4 with
                  | some z => some ⟨y, mo, d, some (h, mi, 0), z⟩
                  | none => none
              | none =>
                match icalMatchZone cs4 with
                | some z => some ⟨y, mo, d, some (h, mi, 0), z⟩
                | none => none
        | _ =>
          match icalMatchZone cs with
          | some z => some ⟨y, mo, d, none, z⟩
          | none => none

/-- An IANA zone as observed through `Intl.DateTimeFormat`: for an
instant `t` (ms), the `Date.UTC` encoding of the wall-clock fields the
formatter prints for `t` in that zone. -/
def TimeZoneView : Type := Int → Int

/-- A fixed-offset zone (wall clock = UTC + `offsetMs`). -/
def fixedZone (offsetMs : Int) : TimeZoneView := fun t => t + offsetMs

/-- `zonedTimeToUtcIso`: take the naive fields as a UTC guess, read the
zone's wall clock at that guess, and subtract the observed offset. -/
def zonedTimeToUtcIso (zone : TimeZoneView) (year month day hour minute second : Int) :
    Option String :=
  let utcDate := jsDateUTC year (month - 1) day hour minute second
  let tzDateMs := zone utcDate
  let offsetMs := tzDateMs - utcDate
  some (toISOString (utcDate - offsetMs))

/-- `parseIcalDateTime(rawValue, tzid, fallbackTimeZone)`: `tzid` and
`fallbackTimeZone` are the zones the two names resolve to (`none` =
absent/empty).  Date-only literals are UTC midnight; an explicit
`Z`/offset wins; otherwise the `TZID` zone, then the provider fallback
zone, then plain UTC. -/
def parseIcalDateTime (tzid fallbackTimeZone : Option TimeZoneView) (rawValue : String) :
    Option String :=
  match icalMatch (jsTrim rawValue) with
  | none => none
  | some m =>
    match m.time with
    | none => some (toISOString (jsDateUTC m.year ((m.month : Int) - 1) m.day 0 0 0))
    | some (h, mi, s) =>
      match m.zone with
      | .zulu => some (toISOString (jsDateUTC m.year ((m.month : Int) - 1) m.day h mi s))
      | .offset negative oh om =>
        let offsetTotalMinutes : Int := (if negative then -1 else 1) * ((oh : Int) * 60 + om)
        some (toISOString
          (jsDateUTC m.year ((m.month : Int) - 1) m.day h mi s - offsetTotalMinutes * 60 * 1000))
      | .absent =>
        match tzid with
        | some zone => zonedTimeToUtcIso zone m.year m.month m.day h mi s
        | none =>
          match fallbackTimeZone with
          | some zone => zonedTimeToUtcIso zone m.year m.month m.day h mi s
          | none => some (toISOString (jsDateUTC m.year ((m.month : Int) - 1) m.day h mi s))

/-! ### Genre construction -/

/-- The classification names of one Ticketmaster classification entry
(`segment.name`, `genre.name`, `subGenre.name`, `type.name`,
`subType.name`). -/
structure TmClassificationNames where
  segmentName : Option String := none
  genreName : Option String := none
  subGenreName : Option String := none
  typeName : Option String := none
  subTypeName : Option String := none
deriving DecidableEq

/-- `Set.prototype.add` on an insertion-ordered string set. -/
def setAdd (l : List String) (s : String) : List String :=
  if s ∈ l then l else l ++ [s]

/-- `Array.from(classificationNameSet)`: each classification's five
names are trimmed, empties are dropped, and the rest are added to one
insertion-ordered set. -/
def tmGenres (classifications : List TmClassificationNames) : List String :=
  classifications.foldl
    (fun acc cls =>
      (([cls.segmentName, cls.genreName, cls.subGenreName, cls.typeName, cls.subTypeName].map
          (fun n => match n with | some s => jsTrim s | none => "")).filter (· ≠ "")).foldl
        setAdd acc)
    []

/-- `\w` (ASCII word character). -/
def isWordChar (c : Char) : Bool := c.isAlphanum || c = '_'

/-- Match the date-like pattern (word boundary, four digits, a slash
or hyphen separator, two digits, the separator again, two digits, word
boundary) at this position; `prev` is the character before the
position, for the word boundaries. -/
def dateLikeAt (prev : Option Char) (cs : List Char) : Bool :=
  (match prev with | none => true | some p => !isWordChar p) &&
  (match readDigits 4 0 cs with
   | none => false
   | some (_, cs) =>
     match cs with
     | sep1 :: cs =>
       (sep1 = '/' || sep1 = '-') &&
       (match readDigits 2 0 cs with
        | none => false
        | some (_, cs) =>
          match cs with
          | sep2 :: cs =>
            (sep2 = '/' || sep2 = '-') &&
            (match readDigits 2 0 cs with
             | none => false
             | some (_, rest) =>
               match rest with
               | [] => true
               | c :: _ => !isWordChar c)
          | [] => false)
     | [] => false)

/-- Scan for the date-like pattern anywhere in the character list. -/
def dateLikeScan : Option Char → List Char → Bool
  | prev, cs =>
    dateLikeAt prev cs ||
      (match cs with
       | [] => false
       | c :: rest => dateLikeScan (some c) rest)

/-- `isCategoryDateLike`: a category value that embeds a
`YYYY-MM-DD`/`YYYY/MM/DD` date is not a genre. -/
def isCategoryDateLike (value : String) : Bool :=
  if value = "" then false else dateLikeScan none value.toList

/-- The genres of `parseRssEventItem`: the (cleaned) category values
with date-like entries removed; for the Smithsonian feed, `Museum` is
appended unless already present case-insensitively. -/
def rssGenres (categoriesForGenres : List String) (isSmithsonian : Bool) : List String :=
  let genres := categoriesForGenres.filter (fun c => !isCategoryDateLike c)
  if isSmithsonian then
    let normalized := genres.map (fun g => jsToLower (jsTrim g))
    if "museum" ∈ normalized then genres else genres ++ ["Museum"]
  else genres

/-! ### Analysis helpers and concrete test fixtures -/

deriving instance DecidableEq for Except

/-- The distance tie-break, stated as the spec states it: distance
ascending, missing distance last. -/
def distOrdered (a b : Event) : Prop :=
  match a.distance, b.distance with
  | some x, some y => x ≤ y
  | some _, none => True
  | none, some _ => False
  | none, none => True

/-- The sort order, stated as the spec states it: resolved start time
ascending with events lacking a finite resolved time at the end, ties
broken by distance. -/
def eventOrdered (host : Int) (a b : Event) : Prop :=
  match resolvedTimeMs host a, resolvedTimeMs host b with
  | some ta, some tb => ta < tb ∨ (ta = tb ∧ distOrdered a b)
  | some _, none => True
  | none, some _ => False
  | none, none => distOrdered a b

/-- Fixture: an event with only a parseable UTC start (2024-01-03). -/
def eventUtcJan3 : Event :=
  { id := some "utc-jan-3", source := some "ticketmaster",
    start := some { utc := some "2024-01-03" } }

/-- Fixture: an event with only a parseable local start (2024-01-01). -/
def eventLocalJan1 : Event :=
  { id := some "local-jan-1", source := some "rssfeed",
    start := some { localTime := some "2024-01-01" } }

/-- Fixture: an event with a null start. -/
def eventNullStart : Event :=
  { id := some "null-start", source := some "rssfeed" }

/-- Fixture: a structured-API event starting Tuesday 2024-01-02 15:00. -/
def tmTue1500 : Event :=
  { id := some "tm-tue-1500", source := some "ticketmaster",
    start := some { localTime := some "2024-01-02T15:00:00" } }

/-- Fixture: the same event starting Tuesday 19:00. -/
def tmTue1900 : Event :=
  { id := some "tm-tue-1900", source := some "ticketmaster",
    start := some { localTime := some "2024-01-02T19:00:00" } }

/-- Fixture: an RSS-provider event starting Tuesday 15:00. -/
def rssTue1500 : Event :=
  { id := some "rss-tue-1500", source := some "somefeed",
    start := some { localTime := some "2024-01-02T15:00:00" } }

/-- Fixture: segment results with a duplicate event id across two
successful segments and one failed segment. -/
def tmSegResultsFixture : List TmSegmentResult :=
  [TmSegmentResult.success
      { key := "music", description := "Live music", status := 200, total := 2,
        requestUrl := "https://api.example/music" }
      [{ id := some "dup" }, { id := some "only-music" }],
   TmSegmentResult.failure
      { key := "comedy", description := "Comedy" }
      { message := "Request failed with status 429", status := some 429 } none,
   TmSegmentResult.success
      { key := "family", description := "Family", status := 200, total := 1,
        requestUrl := "https://api.example/family" }
      [{ id := some "dup", distance := some 1 }]]

/-! ## Helper lemmas -/

theorem parseEventLocalParts_ne_empty {raw : String} {p : LocalParts}
    (h : parseEventLocalParts raw = some p) : raw ≠ "" := by
  intro he
  rw [he] at h
  simp [parseEventLocalParts] at h

/-- Evaluation of the cutoff predicate on an event that is in the
rule's scope and whose start parses to a weekday with explicit
hour and minute. -/
theorem isWeekdayBeforeCutoff_eval (e : Event) (p : LocalParts) (h mi : Int)
    (hsrc : e.source = some "ticketmaster" ∨ e.source = none ∨ e.source = some "")
    (hparse : parseEventLocalParts (getEventStartValue e) = some p)
    (hh : p.hour = some h) (hm : p.minute = some mi)
    (hwd1 : 1 ≤ jsGetUTCDay (jsDateUTC p.year (p.month - 1) p.day 0 0 0))
    (hwd2 : jsGetUTCDay (jsDateUTC p.year (p.month - 1) p.day 0 0 0) ≤ 5) :
    isWeekdayBeforeCutoff e = decide (h < 16 ∨ (h = 16 ∧ mi < 30)) := by
  have hraw := parseEventLocalParts_ne_empty hparse
  unfold isWeekdayBeforeCutoff
  rcases hsrc with h1 | h1 | h1 <;>
    rw [h1] <;>
    simp only [ne_eq, decide_not, Bool.if_false_left] <;>
    rw [hparse] <;>
    simp [hraw, hh, hm, hwd1, hwd2, WEEKDAY_CUTOFF_HOUR, WEEKDAY_CUTOFF_MINUTE] <;>
    by_cases hc : h < 16 <;> by_cases hc2 : h = 16 <;> by_cases hc3 : mi < 30 <;>
    simp [hc, hc2, hc3] <;> omega

/-- Events from a named non-Ticketmaster provider are out of the
rule's scope. -/
theorem isWeekdayBeforeCutoff_exempt (e : Event) (s : String)
    (hsrc : e.source = some s) (hne : s ≠ "") (hnt : s ≠ "ticketmaster") :
    isWeekdayBeforeCutoff e = false := by
  unfold isWeekdayBeforeCutoff
  rw [hsrc]
  simp [hne, hnt]

/-! ## Claim C1 -/

/-- C1: in the aggregated result set, a Ticketmaster event starting on
a weekday strictly before the 16:30 cutoff is excluded; the same event
starting at or after the cutoff is retained; an event from any other
(named) provider is retained regardless of its weekday start time. -/
theorem weekday_cutoff_rule :
    (∀ (l : List Event) (e : Event) (p : LocalParts) (h mi : Int),
      e.source = some "ticketmaster" →
      parseEventLocalParts (getEventStartValue e) = some p →
      p.hour = some h → p.minute = some mi →
      1 ≤ jsGetUTCDay (jsDateUTC p.year (p.month - 1) p.day 0 0 0) →
      jsGetUTCDay (jsDateUTC p.year (p.month - 1) p.day 0 0 0) ≤ 5 →
      (h < 16 ∨ (h = 16 ∧ mi < 30)) →
      e ∉ applyWeekdayCutoff l)
    ∧ (∀ (l : List Event) (e : Event) (p : LocalParts) (h mi : Int),
      e.source = some "ticketmaster" →
      parseEventLocalParts (getEventStartValue e) = some p →
      p.hour = some h → p.minute = some mi →
      1 ≤ jsGetUTCDay (jsDateUTC p.year (p.month - 1) p.day 0 0 0) →
      jsGetUTCDay (jsDateUTC p.year (p.month - 1) p.day 0 0 0) ≤ 5 →
      ¬ (h < 16 ∨ (h = 16 ∧ mi < 30)) →
      e ∈ l → e ∈ applyWeekdayCutoff l)
    ∧ (∀ (l : List Event) (e : Event) (s : String),
      e.source = some s → s ≠ "" → s ≠ "ticketmaster" →
      e ∈ l → e ∈ applyWeekdayCutoff l) := by
  refine ⟨?_, ?_, ?_⟩
  · intro l e p h mi hsrc hparse hh hm hwd1 hwd2 hcut hmem
    have hev : isWeekdayBeforeCutoff e = true := by
      rw [isWeekdayBeforeCutoff_eval e p h mi (Or.inl hsrc) hparse hh hm hwd1 hwd2]
      simpa using hcut
    rcases (List.mem_filter.mp hmem) with ⟨-, hkeep⟩
    rw [hev] at hkeep
    simp at hkeep
  · intro l e p h mi hsrc hparse hh hm hwd1 hwd2 hcut hmem
    have hev : isWeekdayBeforeCutoff e = false := by
      rw [isWeekdayBeforeCutoff_eval e p h mi (Or.inl hsrc) hparse hh hm hwd1 hwd2]
      simpa using hcut
    exact List.mem_filter.mpr ⟨hmem, by rw [hev]; rfl⟩
  · intro l e s hsrc hne hnt hmem
    exact List.mem_filter.mpr
      ⟨hmem, by rw [isWeekdayBeforeCutoff_exempt e s hsrc hne hnt]; rfl⟩

/-- C1 witness: Tuesday 2024-01-02 15:00 Ticketmaster is excluded,
19:00 is retained, and an RSS event at 15:00 is retained. -/
theorem weekday_cutoff_rule_witness :
    tmTue1500 ∉ applyWeekdayCutoff [tmTue1500, tmTue1900]
    ∧ tmTue1900 ∈ applyWeekdayCutoff [tmTue1500, tmTue1900]
    ∧ rssTue1500 ∈ applyWeekdayCutoff [rssTue1500] :=
  ⟨weekday_cutoff_rule.1 [tmTue1500, tmTue1900] tmTue1500
      ⟨2024, 1, 2, some 15, some 0⟩ 15 0 rfl (by decide) rfl rfl (by decide) (by decide)
      (by omega),
   weekday_cutoff_rule.2.1 [tmTue1500, tmTue1900] tmTue1900
      ⟨2024, 1, 2, some 19, some 0⟩ 19 0 rfl (by decide) rfl rfl (by decide) (by decide)
      (by omega) (by decide),
   weekday_cutoff_rule.2.2 [rssTue1500] rssTue1500 "somefeed" rfl (by decide) (by decide)
      (by decide)⟩

/-! ## Claim C10 -/

/-- C10: the cutoff predicate exempts only events whose source is a
non-empty string other than `ticketmaster`; a missing or empty source
is treated exactly like the structured-API source; and no event is
excluded unless its start parses with an explicit hour and minute. -/
theorem weekday_cutoff_scope :
    (∀ (e : Event) (s : String), e.source = some s → s ≠ "" → s ≠ "ticketmaster" →
      isWeekdayBeforeCutoff e = false)
    ∧ (∀ (id : Option String) (st : Option StartField) (dist : Option ℚ),
        isWeekdayBeforeCutoff ⟨id, none, st, dist⟩
          = isWeekdayBeforeCutoff ⟨id, some "ticketmaster", st, dist⟩
        ∧ isWeekdayBeforeCutoff ⟨id, some "", st, dist⟩
          = isWeekdayBeforeCutoff ⟨id, some "ticketmaster", st, dist⟩)
    ∧ (∀ e : Event, isWeekdayBeforeCutoff e = true →
        ∃ (p : LocalParts) (h mi : Int),
          parseEventLocalParts (getEventStartValue e) = some p ∧
          p.hour = some h ∧ p.minute = some mi) := by
  refine ⟨fun e s hsrc hne hnt => isWeekdayBeforeCutoff_exempt e s hsrc hne hnt, ?_, ?_⟩
  · intro id st dist
    constructor <;> · unfold isWeekdayBeforeCutoff getEventStartValue; simp
  · intro e htrue
    simp only [isWeekdayBeforeCutoff] at htrue
    split at htrue
    · exact absurd htrue (by simp)
    · split at htrue
      · exact absurd htrue (by simp)
      · split at htrue
        · exact absurd htrue (by simp)
        · rename_i p hp
          split at htrue
          · exact absurd htrue (by simp)
          · split at htrue
            · rename_i h mi hh2 hm2
              exact ⟨p, h, mi, hp, hh2, hm2⟩
            · exact absurd htrue (by simp)

/-- C10 witness: a source-less event at Tuesday 16:29 is excluded just
like a Ticketmaster one, and exclusion always comes with parsed
hour/minute. -/
theorem weekday_cutoff_scope_witness :
    isWeekdayBeforeCutoff { start := some { localTime := some "2024-01-02T16:29:00" } } = false
      ∨ (∃ (p : LocalParts) (h mi : Int),
          parseEventLocalParts
            (getEventStartValue { start := some { localTime := some "2024-01-02T16:29:00" } })
              = some p ∧ p.hour = some h ∧ p.minute = some mi) :=
  Or.inr (weekday_cutoff_scope.2.2 _ (by decide))

/-! ## Claim C2 (sorting) -/

theorem compareDistance_ne_gt (a b : Event) :
    compareDistance a b ≠ .gt ↔ distOrdered a b := by
  unfold compareDistance distOrdered
  rcases a.distance with _ | da <;> rcases b.distance with _ | db <;> simp
  exact le_total db da

theorem eventOrdered_iff (host : Int) (a b : Event) :
    eventOrdered host a b ↔ eventLE host a b = true := by
  have hd := compareDistance_ne_gt a b
  unfold eventLE compareEvents eventOrdered
  rcases h1 : resolvedTimeMs host a with _ | ta <;>
  rcases h2 : resolvedTimeMs host b with _ | tb <;>
    simp only [h1, h2] <;> simp [hd]
  rcases lt_trichotomy ta tb with h | h | h
  · simp [h, h.ne]
  · simp [h]
  · simp [h.ne', not_lt.mpr (le_of_lt h), lt_asymm h]

theorem distOrdered_total (a b : Event) : distOrdered a b ∨ distOrdered b a := by
  unfold distOrdered
  rcases a.distance with _ | da <;> rcases b.distance with _ | db <;> simp
  exact le_total da db

theorem distOrdered_trans (a b c : Event)
    (hab : distOrdered a b) (hbc : distOrdered b c) : distOrdered a c := by
  unfold distOrdered at hab hbc ⊢
  rcases h4 : a.distance with _ | da <;> rcases h5 : b.distance with _ | db <;>
    rcases h6 : c.distance with _ | dc <;>
    simp only [h4, h5, h6] at hab hbc ⊢ <;>
    first
      | trivial
      | exact le_trans hab hbc

theorem eventOrdered_total (host : Int) (a b : Event) :
    eventOrdered host a b ∨ eventOrdered host b a := by
  have hd := distOrdered_total a b
  unfold eventOrdered
  rcases h1 : resolvedTimeMs host a with _ | ta <;>
  rcases h2 : resolvedTimeMs host b with _ | tb <;>
    simp only [h1, h2]
  · exact hd
  · exact Or.inr trivial
  · exact Or.inl trivial
  · rcases lt_trichotomy ta tb with h | h | h
    · exact Or.inl (Or.inl h)
    · rcases hd with hd | hd
      · exact Or.inl (Or.inr ⟨h, hd⟩)
      · exact Or.inr (Or.inr ⟨h.symm, hd⟩)
    · exact Or.inr (Or.inl h)

theorem eventOrdered_trans (host : Int) (a b c : Event)
    (hab : eventOrdered host a b) (hbc : eventOrdered host b c) :
    eventOrdered host a c := by
  have hd := distOrdered_trans a b c
  unfold eventOrdered at hab hbc ⊢
  rcases h1 : resolvedTimeMs host a with _ | ta <;>
  rcases h2 : resolvedTimeMs host b with _ | tb <;>
  rcases h3 : resolvedTimeMs host c with _ | tc <;>
    simp only [h1, h2, h3] at hab hbc ⊢ <;> try trivial
  · exact hd hab hbc
  · rcases hab with hab | ⟨hab, hab2⟩ <;> rcases hbc with hbc | ⟨hbc, hbc2⟩
    · exact Or.inl (lt_trans hab hbc)
    · exact Or.inl (hbc ▸ hab)
    · exact Or.inl (hab ▸ hbc)
    · exact Or.inr ⟨hab.trans hbc, hd hab2 hbc2⟩

/-- C2 counterexample: `eventLocalJan1` has only a local time and
`eventUtcJan3` has a parseable UTC time, yet the sort places the
local-only event first — resolved times are compared on one axis, so a
parseable UTC time does not sort before an earlier local-only time. -/
theorem sort_events_counterexample :
    (jsDateParse 0 "2024-01-03").isSome = true
    ∧ eventUtcJan3.start = some { localTime := none, utc := some "2024-01-03" }
    ∧ eventLocalJan1.start = some { localTime := some "2024-01-01", utc := none }
    ∧ sortEventsByTimeAndDistance 0 [eventUtcJan3, eventLocalJan1]
        = [eventLocalJan1, eventUtcJan3] := by
  refine ⟨by decide, by decide, by decide, by decide⟩

/-- C2 amended: the sort permutes the input; orders it by resolved
start time (utc preferred over local on one shared axis) with events
lacking a finite resolved time at the end; ties break by distance with
missing distance last; and the spec's concrete example holds. -/
theorem sort_events_amended :
    (∀ (host : Int) (l : List Event), (sortEventsByTimeAndDistance host l).Perm l)
    ∧ (∀ (host : Int) (l : List Event),
        (sortEventsByTimeAndDistance host l).Pairwise (eventOrdered host))
    ∧ sortEventsByTimeAndDistance 0 [eventUtcJan3, eventLocalJan1, eventNullStart]
        = [eventLocalJan1, eventUtcJan3, eventNullStart] := by
  refine ⟨?_, ?_, by decide⟩
  · intro host l
    exact List.perm_insertionSort _ l
  · intro host l
    haveI : IsTotal Event (fun a b => eventLE host a b = true) :=
      ⟨fun a b => by
        rcases eventOrdered_total host a b with h | h
        · exact Or.inl ((eventOrdered_iff host a b).mp h)
        · exact Or.inr ((eventOrdered_iff host b a).mp h)⟩
    haveI : IsTrans Event (fun a b => eventLE host a b = true) :=
      ⟨fun a b c hab hbc =>
        (eventOrdered_iff host a c).mp
          (eventOrdered_trans host a b c ((eventOrdered_iff host a b).mpr hab)
            ((eventOrdered_iff host b c).mpr hbc))⟩
    have hs := List.sorted_insertionSort (fun a b => eventLE host a b = true) l
    exact List.Pairwise.imp (fun hab => (eventOrdered_iff host _ _).mpr hab) hs

/-! ## Claims C5 and C4 (orchestrator collection and query normalisation) -/

theorem collect_foldl_summaries (results : List FetchResult) (st : CollectState) :
    (results.foldl collectStep st).summaries = st.summaries ++ results.map (·.summary) := by
  induction results generalizing st with
  | nil => simp [collectResults]
  | cons r rs ih =>
    rw [List.foldl_cons, ih]
    unfold collectStep
    by_cases h : r.ok <;> simp [h]

theorem collect_foldl_events (results : List FetchResult) (st : CollectState) :
    (results.foldl collectStep st).events
      = st.events ++ (results.filter (·.ok)).flatMap (·.events) := by
  induction results generalizing st with
  | nil => simp
  | cons r rs ih =>
    rw [List.foldl_cons, ih]
    unfold collectStep
    by_cases h : r.ok <;> simp [h]

theorem collect_foldl_anySuccess (results : List FetchResult) (st : CollectState) :
    (results.foldl collectStep st).anySuccess = (st.anySuccess || results.any (·.ok)) := by
  induction results generalizing st with
  | nil => simp
  | cons r rs ih =>
    rw [List.foldl_cons, ih]
    unfold collectStep
    by_cases h : r.ok <;> simp [h]

/-- C5: a provider's rejection never escapes `runDatasourceFetch` and
never aborts the aggregation: the failed provider contributes no
events and an `ok: false` summary carrying its error message, every
other successful provider's events are all collected, and every
dispatched provider has exactly its summary row in the response. -/
theorem provider_failure_isolation :
    (∀ (src : Datasource) (err : JsError),
      (runDatasourceFetch (some (.error err)) src).ok = false
      ∧ (runDatasourceFetch (some (.error err)) src).events = []
      ∧ (runDatasourceFetch (some (.error err)) src).summary.ok = false
      ∧ (runDatasourceFetch (some (.error err)) src).summary.error
          = some (if err.message = "" then "Request failed" else err.message)
      ∧ (runDatasourceFetch (some (.error err)) src).summary.id = src.id)
    ∧ (∀ results : List FetchResult,
        (collectResults results).summaries = results.map (·.summary))
    ∧ (∀ (results : List FetchResult) (r : FetchResult),
        r ∈ results → r.ok = true → ∀ e ∈ r.events, e ∈ (collectResults results).events) := by
  refine ⟨?_, ?_, ?_⟩
  · intro src err
    refine ⟨rfl, rfl, rfl, rfl, rfl⟩
  · intro results
    simpa using collect_foldl_summaries results ⟨[], [], false, none, true⟩
  · intro results r hmem hok e he
    have hev := collect_foldl_events results ⟨[], [], false, none, true⟩
    unfold collectResults
    rw [hev]
    simp only [List.nil_append, List.mem_flatMap]
    exact ⟨r, List.mem_filter.mpr ⟨hmem, hok⟩, he⟩

/-- C5 witness: with one failing and one succeeding provider, the
failure is isolated, the success's events are collected, and both
providers get a summary. -/
theorem provider_failure_isolation_witness :
    ((runDatasourceFetch (some (.error { message := "boom", status := some 503 }))
        { id := "bad", name := "Bad", type := "rss", enabled := true }).events = []
      ∧ (runDatasourceFetch (some (.error { message := "boom", status := some 503 }))
          { id := "bad", name := "Bad", type := "rss", enabled := true }).summary.error
            = some "boom")
    ∧ (collectResults
        [runDatasourceFetch (some (.error { message := "boom", status := some 503 }))
            { id := "bad", name := "Bad", type := "rss", enabled := true },
         runDatasourceFetch (some (.ok { events := [eventNullStart] }))
            { id := "good", name := "Good", type := "rss", enabled := true }]).summaries.length = 2
    ∧ eventNullStart ∈ (collectResults
        [runDatasourceFetch (some (.error { message := "boom", status := some 503 }))
            { id := "bad", name := "Bad", type := "rss", enabled := true },
         runDatasourceFetch (some (.ok { events := [eventNullStart] }))
            { id := "good", name := "Good", type := "rss", enabled := true }]).events := by
  refine ⟨⟨(provider_failure_isolation.1 _ _).2.1, ?_⟩, ?_, ?_⟩
  · have h := (provider_failure_isolation.1
      { id := "bad", name := "Bad", type := "rss", enabled := true }
      { message := "boom", status := some 503 }).2.2.2.1
    simpa using h
  · rw [provider_failure_isolation.2.1]
    rfl
  · exact provider_failure_isolation.2.2 _
      (runDatasourceFetch (some (.ok { events := [eventNullStart] }))
        { id := "good", name := "Good", type := "rss", enabled := true })
      (by decide) rfl eventNullStart (by decide)

/-- C4 counterexample: the endpoint's day-window normalisation clamps
`days=32` to 31, not into the claimed 1..60 range (which would keep
32). -/
theorem query_normalization_counterexample :
    clampDays (JsQuery.num 32) = 31 ∧ min (max (32 : Int) 1) 60 = 32
      ∧ clampDays (JsQuery.num 32) ≠ min (max (32 : Int) 1) 60 := by decide

/-- C4 amended: the radius is clamped into 1..150 miles with default
50 when absent, non-numeric or non-positive; the day window is clamped
into 1..31 days (not 1..60) with default 14 when absent or
non-numeric; and a 200 payload carries exactly these values. -/
theorem query_normalization_amended :
    (normalizeRadius .absent = 50 ∧ normalizeRadius .nan = 50
      ∧ (∀ r : ℚ, r > 0 → normalizeRadius (.num r) = min (max r 1) 150)
      ∧ (∀ r : ℚ, r ≤ 0 → normalizeRadius (.num r) = 50)
      ∧ (∀ q : JsQuery ℚ, 1 ≤ normalizeRadius q ∧ normalizeRadius q ≤ 150))
    ∧ (clampDays .absent = 14 ∧ clampDays .nan = 14
      ∧ (∀ n : Int, clampDays (.num n) = min (max n 1) 31)
      ∧ (∀ q : JsQuery Int, 1 ≤ clampDays q ∧ clampDays q ≤ 31))
    ∧ (∀ host handlers sources lat lon radius days src cached rad look evs ss segs,
        apiShows host handlers sources lat lon radius days
          = .success src cached rad look evs ss segs →
        rad = normalizeRadius radius ∧ look = clampDays days) := by
  have hdays : ∀ q : JsQuery Int, 1 ≤ clampDays q ∧ clampDays q ≤ 31 := by
    intro q
    rcases q with _ | _ | n <;> simp [clampDays, TICKETMASTER_DEFAULT_DAYS] <;> omega
  refine ⟨⟨rfl, rfl, ?_, ?_, ?_⟩, ⟨rfl, rfl, fun n => rfl, hdays⟩, ?_⟩
  · intro r hr
    simp [normalizeRadius, parseNumberQuery, hr, TICKETMASTER_MAX_RADIUS_MILES]
  · intro r hr
    simp [normalizeRadius, parseNumberQuery, not_lt.mpr hr, TICKETMASTER_DEFAULT_RADIUS]
  · intro q
    rcases q with _ | _ | r
    · norm_num [normalizeRadius, parseNumberQuery, TICKETMASTER_DEFAULT_RADIUS]
    · norm_num [normalizeRadius, parseNumberQuery, TICKETMASTER_DEFAULT_RADIUS]
    · simp only [normalizeRadius, parseNumberQuery, TICKETMASTER_DEFAULT_RADIUS,
        TICKETMASTER_MAX_RADIUS_MILES]
      split_ifs with hr
      · exact ⟨le_min (le_max_right r 1) (by norm_num), min_le_right _ _⟩
      · norm_num
  · intro host handlers sources lat lon radius days src cached rad look evs ss segs h
    have h1 := (hdays days).1
    simp only [apiShows] at h
    split at h
    · split at h
      · simp at h
      · split at h
        · split at h <;> simp at h
        · rw [ShowsResponse.success.injEq] at h
          refine ⟨h.2.2.1.symm, ?_⟩
          have h2 := h.2.2.2.1
          rw [if_neg (by omega)] at h2
          exact h2.symm
    · simp at h

/-- C4 witness: radius 200 clamps to 150, days 32 clamps to 31, and a
concrete 200 response carries exactly those values. -/
theorem query_normalization_amended_witness :
    ((0:ℚ) < 200 ∧ normalizeRadius (.num 200) = min (max (200:ℚ) 1) 150)
    ∧ ((150:ℚ) = normalizeRadius (.num 200) ∧ (31:Int) = clampDays (.num 32)) :=
  ⟨⟨by norm_num, query_normalization_amended.1.2.2.1 200 (by norm_num)⟩,
   query_normalization_amended.2.2 0 (fun _ => some (.ok { events := [] }))
     [{ id := "tm", name := "TM", type := "ticketmaster", enabled := true }]
     (some 38) (some (-77)) (.num 200) (.num 32) "tm" false 150 31 []
     [{ id := "tm", name := "TM", type := "ticketmaster", ok := true, total := some 0 }] none
     (by decide)⟩

/-! ## Claim C3 (endpoint statuses) -/

/-- C3: response statuses of the events endpoint: 400 exactly when a
coordinate is missing or not a finite number; 200 with events and
per-provider summaries when at least one enabled provider succeeds;
500 with the credential error code when all failed and some failure is
the absent Ticketmaster key; 502 when all failed otherwise. -/
theorem api_shows_statuses :
    (∀ host handlers sources lat lon radius days,
      apiShows host handlers sources lat lon radius days = .badRequest
        ↔ (lat = none ∨ lon = none))
    ∧ (∀ host handlers sources (lat lon : ℚ) radius days,
        sources.filter (·.enabled) ≠ [] →
        (∃ s ∈ sources.filter (·.enabled), (runDatasourceFetch (handlers s) s).ok = true) →
        (apiShows host handlers sources (some lat) (some lon) radius days).status = 200
        ∧ ∃ src cached rad look evs segs,
            apiShows host handlers sources (some lat) (some lon) radius days
              = .success src cached rad look evs
                  ((sources.filter (·.enabled)).map
                    (fun s => (runDatasourceFetch (handlers s) s).summary)) segs)
    ∧ (∀ host handlers sources (lat lon : ℚ) radius days,
        sources.filter (·.enabled) ≠ [] →
        (∀ s ∈ sources.filter (·.enabled), (runDatasourceFetch (handlers s) s).ok = false) →
        (∃ s ∈ sources.filter (·.enabled),
          resultKeyMissing (runDatasourceFetch (handlers s) s) = true) →
        apiShows host handlers sources (some lat) (some lon) radius days
          = .apiKeyMissing ((sources.filter (·.enabled)).map
              (fun s => (runDatasourceFetch (handlers s) s).summary))
        ∧ (apiShows host handlers sources (some lat) (some lon) radius days).status = 500)
    ∧ (∀ host handlers sources (lat lon : ℚ) radius days,
        sources.filter (·.enabled) ≠ [] →
        (∀ s ∈ sources.filter (·.enabled), (runDatasourceFetch (handlers s) s).ok = false) →
        (∀ s ∈ sources.filter (·.enabled),
          resultKeyMissing (runDatasourceFetch (handlers s) s) = false) →
        apiShows host handlers sources (some lat) (some lon) radius days
          = .fetchFailed ((sources.filter (·.enabled)).map
              (fun s => (runDatasourceFetch (handlers s) s).summary))
        ∧ (apiShows host handlers sources (some lat) (some lon) radius days).status = 502) := by
  have hmapany : ∀ (f : Datasource → FetchResult) (p : FetchResult → Bool) (l : List Datasource),
      (l.map f).any p = l.any (fun s => p (f s)) := by
    intro f p l
    induction l with
    | nil => rfl
    | cons a l ih => simp [ih]
  have hsum : ∀ (handlers : Datasource → Option (Except JsError FetchOk))
      (enabled : List Datasource),
      (collectResults (enabled.map (fun s => runDatasourceFetch (handlers s) s))).summaries
        = enabled.map (fun s => (runDatasourceFetch (handlers s) s).summary) := by
    intro handlers enabled
    rw [show collectResults = fun results => results.foldl collectStep ⟨[], [], false, none, true⟩
      from rfl]
    rw [collect_foldl_summaries]
    simp [List.map_map]
  have hany : ∀ (handlers : Datasource → Option (Except JsError FetchOk))
      (enabled : List Datasource),
      (collectResults (enabled.map (fun s => runDatasourceFetch (handlers s) s))).anySuccess
        = enabled.any (fun s => (runDatasourceFetch (handlers s) s).ok) := by
    intro handlers enabled
    rw [show collectResults = fun results => results.foldl collectStep ⟨[], [], false, none, true⟩
      from rfl]
    rw [collect_foldl_anySuccess]
    rw [hmapany]
    simp
  refine ⟨?_, ?_, ?_, ?_⟩
  · intro host handlers sources lat lon radius days
    constructor
    · intro h
      by_contra hc
      push_neg at hc
      obtain ⟨x, hx⟩ := Option.ne_none_iff_exists'.mp hc.1
      obtain ⟨y, hy⟩ := Option.ne_none_iff_exists'.mp hc.2
      rw [hx, hy] at h
      simp only [apiShows, normalizeCoordinate] at h
      split at h
      · simp at h
      · split at h
        · split at h <;> simp at h
        · simp at h
    · intro h
      rcases h with h | h <;> subst h
      · rcases lon with _ | y <;> rfl
      · rcases lat with _ | x <;> rfl
  · intro host handlers sources lat lon radius days hne hex
    have hanyt : (sources.filter (·.enabled)).any
        (fun s => (runDatasourceFetch (handlers s) s).ok) = true := by
      rw [List.any_eq_true]
      obtain ⟨s, hs, hok⟩ := hex
      exact ⟨s, hs, hok⟩
    simp only [apiShows, normalizeCoordinate]
    rw [if_neg (by simpa [List.isEmpty_iff] using hne)]
    rw [hany handlers, hanyt]
    simp only [Bool.not_true, Bool.false_eq_true, if_false]
    rw [hsum handlers]
    exact ⟨rfl, _, _, _, _, _, _, rfl⟩
  · intro host handlers sources lat lon radius days hne hall hex
    have hanyf : (sources.filter (·.enabled)).any
        (fun s => (runDatasourceFetch (handlers s) s).ok) = false := by
      rw [List.any_eq_false]
      intro s hs
      simp [hall s hs]
    have hkey : ((sources.filter (·.enabled)).map
        (fun s => runDatasourceFetch (handlers s) s)).any resultKeyMissing = true := by
      rw [hmapany, List.any_eq_true]
      obtain ⟨s, hs, hk⟩ := hex
      exact ⟨s, hs, hk⟩
    simp only [apiShows, normalizeCoordinate]
    rw [if_neg (by simpa [List.isEmpty_iff] using hne)]
    rw [hany handlers, hanyf]
    simp only [Bool.not_false, if_true]
    rw [hkey]
    simp only [if_true]
    rw [hsum handlers]
    exact ⟨rfl, rfl⟩
  · intro host handlers sources lat lon radius days hne hall hnokey
    have hanyf : (sources.filter (·.enabled)).any
        (fun s => (runDatasourceFetch (handlers s) s).ok) = false := by
      rw [List.any_eq_false]
      intro s hs
      simp [hall s hs]
    have hkey : ((sources.filter (·.enabled)).map
        (fun s => runDatasourceFetch (handlers s) s)).any resultKeyMissing = false := by
      rw [hmapany, List.any_eq_false]
      intro s hs
      simp [hnokey s hs]
    simp only [apiShows, normalizeCoordinate]
    rw [if_neg (by simpa [List.isEmpty_iff] using hne)]
    rw [hany handlers, hanyf]
    simp only [Bool.not_false, if_true]
    rw [hkey]
    simp only [Bool.false_eq_true, if_false]
    rw [hsum handlers]
    exact ⟨rfl, rfl⟩

/-- C3 witness: one enabled provider; missing coordinates give 400, a
successful fetch 200, an all-failed run with the missing-key code 500,
and any other all-failed run 502. -/
theorem api_shows_statuses_witness :
    apiShows 0 (fun _ => some (.ok { events := [] }))
        [{ id := "tm", name := "TM", type := "ticketmaster", enabled := true }]
        none (some 1) .absent .absent = .badRequest
    ∧ (apiShows 0 (fun _ => some (.ok { events := [] }))
        [{ id := "tm", name := "TM", type := "ticketmaster", enabled := true }]
        (some 38) (some (-77)) .absent .absent).status = 200
    ∧ (apiShows 0 (fun _ => some (.error ticketmasterMissingKeyError))
        [{ id := "tm", name := "TM", type := "ticketmaster", enabled := true }]
        (some 38) (some (-77)) .absent .absent).status = 500
    ∧ (apiShows 0 (fun _ => some (.error { message := "upstream 503", status := some 503 }))
        [{ id := "tm", name := "TM", type := "ticketmaster", enabled := true }]
        (some 38) (some (-77)) .absent .absent).status = 502 :=
  ⟨(api_shows_statuses.1 0 (fun _ => some (.ok { events := [] }))
      [{ id := "tm", name := "TM", type := "ticketmaster", enabled := true }]
      none (some 1) .absent .absent).mpr (Or.inl rfl),
   (api_shows_statuses.2.1 0 (fun _ => some (.ok { events := [] }))
      [{ id := "tm", name := "TM", type := "ticketmaster", enabled := true }]
      38 (-77) .absent .absent (by decide)
      ⟨{ id := "tm", name := "TM", type := "ticketmaster", enabled := true },
        by decide, by decide⟩).1,
   by
    rw [(api_shows_statuses.2.2.1 0 (fun _ => some (.error ticketmasterMissingKeyError))
      [{ id := "tm", name := "TM", type := "ticketmaster", enabled := true }]
      38 (-77) .absent .absent (by decide) (by decide)
      ⟨{ id := "tm", name := "TM", type := "ticketmaster", enabled := true },
        by decide, by decide⟩).1]
    rfl,
   by
    rw [(api_shows_statuses.2.2.2 0
      (fun _ => some (.error { message := "upstream 503", status := some 503 }))
      [{ id := "tm", name := "TM", type := "ticketmaster", enabled := true }]
      38 (-77) .absent .absent (by decide) (by decide) (by decide)).1]
    rfl⟩

/-! ## Claim C6 (structured-API segment merge) -/

theorem tmCombine_append (acc xs ys : List Event) :
    tmCombineEvents (tmCombineEvents acc xs) ys = tmCombineEvents acc (xs ++ ys) := by
  unfold tmCombineEvents
  rw [List.foldl_append]

theorem tmCombine_cons (acc : List Event) (ev : Event) (evs : List Event) :
    tmCombineEvents acc (ev :: evs)
      = tmCombineEvents
          (match ev.id with
           | none => acc
           | some k => if acc.any (fun e => e.id = some k) then acc else acc ++ [ev]) evs := rfl

theorem tmCombine_cons_none (acc : List Event) (ev : Event) (evs : List Event)
    (hid : ev.id = none) :
    tmCombineEvents acc (ev :: evs) = tmCombineEvents acc evs := by
  rw [tmCombine_cons]
  congr 1
  rw [hid]

theorem tmCombine_cons_dup (acc : List Event) (ev : Event) (evs : List Event) (k2 : String)
    (hid : ev.id = some k2)
    (hmem : (acc.any fun e => decide (e.id = some k2)) = true) :
    tmCombineEvents acc (ev :: evs) = tmCombineEvents acc evs := by
  rw [tmCombine_cons]
  congr 1
  rw [hid]
  show (if (acc.any fun e => decide (e.id = some k2)) = true then acc else acc ++ [ev]) = acc
  rw [if_pos hmem]

theorem tmCombine_cons_new (acc : List Event) (ev : Event) (evs : List Event) (k2 : String)
    (hid : ev.id = some k2)
    (hmem : (acc.any fun e => decide (e.id = some k2)) = false) :
    tmCombineEvents acc (ev :: evs) = tmCombineEvents (acc ++ [ev]) evs := by
  rw [tmCombine_cons]
  congr 1
  rw [hid]
  show (if (acc.any fun e => decide (e.id = some k2)) = true then acc else acc ++ [ev])
    = acc ++ [ev]
  rw [hmem]
  simp

theorem merge_combined_eq : ∀ (rs : List TmSegmentResult) (acc : List Event),
    rs.foldl
      (fun acc r =>
        match r with
        | .failure _ _ _ => acc
        | .success _ events => tmCombineEvents acc events) acc
      = tmCombineEvents acc (tmOkEvents rs) := by
  intro rs
  induction rs with
  | nil => intro acc; rfl
  | cons r rs ih =>
    intro acc
    cases r with
    | failure seg err u => simp [List.foldl_cons, tmOkEvents, ih]
    | success summ evs =>
      rw [List.foldl_cons]
      show rs.foldl _ (tmCombineEvents acc evs) = _
      rw [ih, tmCombine_append]
      simp [tmOkEvents]

theorem tmCombine_find? (k : String) : ∀ (evs acc : List Event),
    (tmCombineEvents acc evs).find? (fun e => e.id == some k)
      = ((acc.find? (fun e => e.id == some k)).or
          (evs.find? (fun e => e.id == some k))) := by
  intro evs
  induction evs with
  | nil => intro acc; simp [tmCombineEvents]
  | cons ev evs ih =>
    intro acc
    cases hid : ev.id with
    | none =>
      rw [tmCombine_cons_none acc ev evs hid, ih]
      have hpk : (ev.id == some k) = false := by simp [hid]
      simp [List.find?_cons, hpk]
    | some k2 =>
      by_cases hmem : (acc.any fun e => decide (e.id = some k2)) = true
      · rw [tmCombine_cons_dup acc ev evs k2 hid hmem, ih]
        by_cases hk : k2 = k
        · have hmemk : (acc.any fun e => decide (e.id = some k)) = true := hk ▸ hmem
          have hex : ∃ a, acc.find? (fun e => e.id == some k) = some a := by
            rw [← Option.isSome_iff_exists, List.find?_isSome]
            obtain ⟨e, he, hp⟩ := List.any_eq_true.mp hmemk
            exact ⟨e, he, by simpa using hp⟩
          obtain ⟨a, ha⟩ := hex
          rw [ha]
          simp
        · have hpk : (ev.id == some k) = false := by simp [hid, hk]
          simp [List.find?_cons, hpk]
      · rw [tmCombine_cons_new acc ev evs k2 hid (by simpa using hmem), ih]
        rw [List.find?_append]
        have hcons : (ev :: evs).find? (fun e => e.id == some k)
            = (([ev].find? (fun e => e.id == some k)).or
                (evs.find? (fun e => e.id == some k))) := by
          by_cases hpk : (ev.id == some k) = true
          · simp [List.find?_cons, hpk]
          · simp [List.find?_cons, hpk]
        rw [hcons, Option.or_assoc]

theorem tmCombine_nodup : ∀ (evs acc : List Event),
    (acc.filterMap (·.id)).Nodup → ((tmCombineEvents acc evs).filterMap (·.id)).Nodup := by
  intro evs
  induction evs with
  | nil => intro acc h; exact h
  | cons ev evs ih =>
    intro acc h
    cases hid : ev.id with
    | none => rw [tmCombine_cons_none acc ev evs hid]; exact ih acc h
    | some k2 =>
      by_cases hmem : (acc.any fun e => decide (e.id = some k2)) = true
      · rw [tmCombine_cons_dup acc ev evs k2 hid hmem]
        exact ih acc h
      · rw [tmCombine_cons_new acc ev evs k2 hid (by simpa using hmem)]
        refine ih (acc ++ [ev]) ?_
        rw [List.filterMap_append]
        have h1 : List.filterMap (·.id) [ev] = [k2] := by simp [hid]
        rw [h1, List.nodup_append]
        refine ⟨h, List.nodup_singleton k2, ?_⟩
        intro x hx hx2
        have hxk : x = k2 := by simpa using hx2
        obtain ⟨e, he, hei⟩ := List.mem_filterMap.mp hx
        have hc : acc.any (fun e => decide (e.id = some k2)) = true := by
          rw [List.any_eq_true]
          refine ⟨e, he, ?_⟩
          simp [hei, hxk.symm]
        exact hmem hc

theorem tmCombine_subset : ∀ (evs acc : List Event) (e : Event),
    e ∈ tmCombineEvents acc evs → e ∈ acc ∨ e ∈ evs := by
  intro evs
  induction evs with
  | nil => intro acc e h; exact Or.inl h
  | cons ev evs ih =>
    intro acc e h
    cases hid : ev.id with
    | none =>
      rw [tmCombine_cons_none acc ev evs hid] at h
      rcases ih acc e h with h2 | h2
      · exact Or.inl h2
      · exact Or.inr (List.mem_cons_of_mem ev h2)
    | some k2 =>
      by_cases hmem : (acc.any fun e => decide (e.id = some k2)) = true
      · rw [tmCombine_cons_dup acc ev evs k2 hid hmem] at h
        rcases ih acc e h with h2 | h2
        · exact Or.inl h2
        · exact Or.inr (List.mem_cons_of_mem ev h2)
      · rw [tmCombine_cons_new acc ev evs k2 hid (by simpa using hmem)] at h
        rcases ih (acc ++ [ev]) e h with h2 | h2
        · rcases List.mem_append.mp h2 with h3 | h3
          · exact Or.inl h3
          · exact Or.inr (by simpa using Or.inl (List.mem_singleton.mp h3))
        · exact Or.inr (List.mem_cons_of_mem ev h2)

/-- C6: the structured-API adapter merges per-category segment results
into one list keyed by event id with the first occurrence winning
(events with a null id are dropped); if at least one category
succeeded it returns the partial combined result with a per-category
ok/error summary, and if none succeeded it throws the typed
`ticketmaster_fetch_failed` error. -/
theorem ticketmaster_segment_merge :
    (∀ rs : List TmSegmentResult, tmAnySegmentOk rs = false →
      mergeTicketmasterSegments rs
        = .error (ticketmasterFetchFailedError (tmSegmentSummaries rs)))
    ∧ (∀ rs : List TmSegmentResult, tmAnySegmentOk rs = true →
      ∃ evs, mergeTicketmasterSegments rs = .ok (evs, tmSegmentSummaries rs)
        ∧ (evs.filterMap (·.id)).Nodup
        ∧ (∀ e ∈ evs, e ∈ tmOkEvents rs)
        ∧ (∀ k : String, evs.find? (fun e => e.id == some k)
            = (tmOkEvents rs).find? (fun e => e.id == some k))) := by
  constructor
  · intro rs h
    simp only [mergeTicketmasterSegments, h]
    rfl
  · intro rs h
    have hc := merge_combined_eq rs []
    refine ⟨tmCombineEvents [] (tmOkEvents rs), ?_,
      tmCombine_nodup (tmOkEvents rs) [] (by simp), ?_, fun k => ?_⟩
    · simp only [mergeTicketmasterSegments, h, Bool.not_true, Bool.false_eq_true, if_false]
      rw [hc]
    · intro e he
      rcases tmCombine_subset (tmOkEvents rs) [] e he with h2 | h2
      · exact absurd h2 (List.not_mem_nil e)
      · exact h2
    · rw [tmCombine_find? k (tmOkEvents rs) []]
      simp

/-- C6 witness: on the fixture with a duplicate id across segments and
one failed segment, the merge returns the deduplicated partial result
with all three per-category summaries. -/
theorem ticketmaster_segment_merge_witness :
    tmAnySegmentOk tmSegResultsFixture = true
    ∧ ∃ evs, mergeTicketmasterSegments tmSegResultsFixture
          = .ok (evs, tmSegmentSummaries tmSegResultsFixture)
        ∧ (evs.filterMap (·.id)).Nodup
        ∧ (∀ e ∈ evs, e ∈ tmOkEvents tmSegResultsFixture)
        ∧ (∀ k : String, evs.find? (fun e => e.id == some k)
            = (tmOkEvents tmSegResultsFixture).find? (fun e => e.id == some k)) :=
  ⟨by decide, ticketmaster_segment_merge.2 tmSegResultsFixture (by decide)⟩

/-! ## Claim C7 (start-field invariant) -/

/-- C7 counterexample: a date-only structured-API event (`localDate`
present, no `dateTime`) yields a valid ISO `start.local` and a null
`start.utc` — one valid and one null, contradicting the invariant. -/
theorem start_invariant_counterexample :
    tmStartField 0 none (some "2024-05-01") none
      = .ok { localTime := some "2024-05-01T00:00:00.000Z", utc := none }
    ∧ (jsDateParse 0 "2024-05-01T00:00:00.000Z").isSome = true
    ∧ IsIsoRendering "2024-05-01T00:00:00.000Z" :=
  ⟨by decide, by decide, ⟨1714521600000, by decide⟩⟩

/-- C7 amended: `start.local`/`start.utc` are each null or the ISO
rendering of an instant, and a non-null `start.utc` forces
`start.local` to be the same rendering; but a date-only structured-API
event legitimately carries a valid `start.local` with a null
`start.utc`.  RSS events always have `start.local = start.utc`. -/
theorem start_invariant_amended :
    (∀ startIso : Option String, (rssStart startIso).localTime = (rssStart startIso).utc)
    ∧ (∀ (host : Int) (dateTime localDate localTime : Option String) (st : StartField),
        tmStartField host dateTime localDate localTime = .ok st →
        (∀ u, st.utc = some u → st.localTime = some u ∧ IsIsoRendering u)
        ∧ (∀ l, st.localTime = some l → IsIsoRendering l)) := by
  constructor
  · intro startIso; rfl
  · intro host dateTime localDate localTime st h
    simp only [tmStartField] at h
    cases hdt : jsTruthy dateTime with
    | some dt =>
      rw [hdt] at h
      dsimp only at h
      cases hp : jsDateParse host dt with
      | some ms =>
        rw [hp] at h
        simp only [Option.map_some, Except.ok.injEq] at h
        subst h
        constructor
        · intro u hu
          have hu2 : u = toISOString ms := by simpa using hu.symm
          subst hu2
          exact ⟨by simp, ⟨ms, rfl⟩⟩
        · intro l hl
          have hl2 : l = toISOString ms := by simpa using hl.symm
          exact ⟨ms, hl2⟩
      | none =>
        rw [hp] at h
        simp at h
    | none =>
      rw [hdt] at h
      dsimp only at h
      simp only [Except.ok.injEq] at h
      subst h
      constructor
      · intro u hu
        simp at hu
      · intro l hl
        cases hld : jsTruthy localDate with
        | some ld =>
          rw [hld] at hl
          dsimp only at hl
          cases hp : jsDateParse host
              (ld ++ (match jsTruthy localTime with
                      | some lt => "T" ++ lt
                      | none => "T00:00:00")) with
          | some ms =>
            rw [hp] at hl
            have hl2 : l = toISOString ms := by simpa using hl.symm
            exact ⟨ms, hl2⟩
          | none =>
            rw [hp] at hl
            simp at hl
        | none =>
          rw [hld] at hl
          dsimp only at hl
          simp at hl

/-- C7 witness: the amended invariant instantiated on a zoned
structured-API start and on an RSS start. -/
theorem start_invariant_amended_witness :
    (rssStart (some "2024-05-01T19:00:00.000Z")).localTime
      = (rssStart (some "2024-05-01T19:00:00.000Z")).utc
    ∧ ((∀ u, (StartField.mk (some "2024-05-01T19:00:00.000Z") (some "2024-05-01T19:00:00.000Z")).utc = some u →
        (StartField.mk (some "2024-05-01T19:00:00.000Z") (some "2024-05-01T19:00:00.000Z")).localTime = some u ∧ IsIsoRendering u)
      ∧ (∀ l, (StartField.mk (some "2024-05-01T19:00:00.000Z") (some "2024-05-01T19:00:00.000Z")).localTime = some l → IsIsoRendering l)) :=
  ⟨start_invariant_amended.1 (some "2024-05-01T19:00:00.000Z"),
   start_invariant_amended.2 0 (some "2024-05-01T19:00:00.000Z") (some "2024-05-01")
     (some "19:00:00")
     (StartField.mk (some "2024-05-01T19:00:00.000Z") (some "2024-05-01T19:00:00.000Z"))
     (by decide)⟩

/-! ## Claim C8 (iCal date-time resolution) -/

/-- C8: a bare `Z`-suffixed iCal literal resolves to exactly that UTC
instant; a literal without zone designator with a `TZID` zone (or the
provider fallback zone) resolves to the UTC instant whose wall clock
in that (fixed-offset) zone equals the literal; and a concrete
TZID-qualified local time and `Z` time yield correct, distinct UTC
instants. -/
theorem ical_datetime_resolution :
    (∀ (tzid fallback : Option TimeZoneView) (s : String) (m : IcalMatch) (h mi sec : Nat),
      icalMatch (jsTrim s) = some m → m.time = some (h, mi, sec) → m.zone = .zulu →
      parseIcalDateTime tzid fallback s
        = some (toISOString (jsDateUTC m.year ((m.month : Int) - 1) m.day h mi sec)))
    ∧ (∀ (off : Int) (fallback : Option TimeZoneView) (s : String) (m : IcalMatch)
        (h mi sec : Nat),
      icalMatch (jsTrim s) = some m → m.time = some (h, mi, sec) → m.zone = .absent →
      parseIcalDateTime (some (fixedZone off)) fallback s
        = some (toISOString (jsDateUTC m.year ((m.month : Int) - 1) m.day h mi sec - off)))
    ∧ (∀ (off : Int) (s : String) (m : IcalMatch) (h mi sec : Nat),
      icalMatch (jsTrim s) = some m → m.time = some (h, mi, sec) → m.zone = .absent →
      parseIcalDateTime none (some (fixedZone off)) s
        = some (toISOString (jsDateUTC m.year ((m.month : Int) - 1) m.day h mi sec - off)))
    ∧ (parseIcalDateTime (some (fixedZone (-18000000))) none "20240105T190000"
          = some "2024-01-06T00:00:00.000Z"
      ∧ parseIcalDateTime none none "20240105T190000Z" = some "2024-01-05T19:00:00.000Z"
      ∧ ("2024-01-06T00:00:00.000Z" : String) ≠ "2024-01-05T19:00:00.000Z") := by
  refine ⟨?_, ?_, ?_, by decide, by decide, by decide⟩
  · intro tzid fallback s m h mi sec hm ht hz
    simp only [parseIcalDateTime, hm, ht, hz]
  · intro off fallback s m h mi sec hm ht hz
    simp only [parseIcalDateTime, hm, ht, hz, zonedTimeToUtcIso, fixedZone]
    congr 2
    ring
  · intro off s m h mi sec hm ht hz
    simp only [parseIcalDateTime, hm, ht, hz, zonedTimeToUtcIso, fixedZone]
    congr 2
    ring

/-- C8 witness: the three resolution rules at concrete literals. -/
theorem ical_datetime_resolution_witness :
    parseIcalDateTime none none "20240105T190000Z"
      = some (toISOString (jsDateUTC 2024 ((1 : Int) - 1) 5 19 0 0))
    ∧ parseIcalDateTime (some (fixedZone (-18000000))) none "20240105T190000"
      = some (toISOString (jsDateUTC 2024 ((1 : Int) - 1) 5 19 0 0 - (-18000000)))
    ∧ parseIcalDateTime none (some (fixedZone 3600000)) "20240105T190000"
      = some (toISOString (jsDateUTC 2024 ((1 : Int) - 1) 5 19 0 0 - 3600000)) :=
  ⟨ical_datetime_resolution.1 none none "20240105T190000Z"
      ⟨2024, 1, 5, some (19, 0, 0), .zulu⟩ 19 0 0 (by decide) rfl rfl,
   ical_datetime_resolution.2.1 (-18000000) none "20240105T190000"
      ⟨2024, 1, 5, some (19, 0, 0), .absent⟩ 19 0 0 (by decide) rfl rfl,
   ical_datetime_resolution.2.2.1 3600000 "20240105T190000"
      ⟨2024, 1, 5, some (19, 0, 0), .absent⟩ 19 0 0 (by decide) rfl rfl⟩

/-! ## Claim C9 (genre deduplication) -/

theorem setAdd_nodup (l : List String) (s : String) (h : l.Nodup) : (setAdd l s).Nodup := by
  unfold setAdd
  split_ifs with hm
  · exact h
  · rw [List.nodup_append]
    refine ⟨h, List.nodup_singleton s, ?_⟩
    intro x hx hx2
    have : x = s := by simpa using hx2
    subst this
    exact hm hx

theorem foldl_setAdd_nodup (names : List String) (acc : List String) (h : acc.Nodup) :
    (names.foldl setAdd acc).Nodup := by
  induction names generalizing acc with
  | nil => exact h
  | cons n ns ih => exact ih _ (setAdd_nodup acc n h)

/-- C9 counterexample: an RSS item with category tags `Music` and
`music` produces genres with two case-insensitively equal entries —
the RSS genre list is not deduplicated at all. -/
theorem genres_dedup_counterexample :
    rssGenres ["Music", "music"] false = ["Music", "music"]
    ∧ ¬ ((rssGenres ["Music", "music"] false).map jsToLower).Nodup := by
  constructor <;> decide

/-- C9 amended: the structured-API adapter's genres are deduplicated
under exact string comparison (JavaScript `Set` semantics, so two
entries differing only by case can still coexist), while the RSS
adapter's genres are not deduplicated: they are exactly the non
date-like category values, plus possibly `Museum`. -/
theorem genres_dedup_amended :
    (∀ clss : List TmClassificationNames, (tmGenres clss).Nodup)
    ∧ (∀ (cats : List String) (smith : Bool) (g : String),
        g ∈ rssGenres cats smith → g ∈ cats ∨ g = "Museum") := by
  constructor
  · intro clss
    have aux : ∀ (cs : List TmClassificationNames) (acc : List String), acc.Nodup →
        (cs.foldl
          (fun acc cls =>
            (([cls.segmentName, cls.genreName, cls.subGenreName, cls.typeName,
                cls.subTypeName].map
                (fun n => match n with | some s => jsTrim s | none => "")).filter
              (· ≠ "")).foldl setAdd acc) acc).Nodup := by
      intro cs
      induction cs with
      | nil => intro acc h; exact h
      | cons c cs ih =>
        intro acc h
        exact ih _ (foldl_setAdd_nodup _ acc h)
    exact aux clss [] List.nodup_nil
  · intro cats smith g hg
    simp only [rssGenres] at hg
    split_ifs at hg with h1 h2
    · exact Or.inl (List.mem_filter.mp hg).1
    · rcases List.mem_append.mp hg with h3 | h3
      · exact Or.inl (List.mem_filter.mp h3).1
      · exact Or.inr (by simpa using h3)
    · exact Or.inl (List.mem_filter.mp hg).1

/-- C9 witness: the amended statement at concrete inputs. -/
theorem genres_dedup_amended_witness :
    (tmGenres [{ segmentName := some "Music", genreName := some " Rock " },
               { genreName := some "Rock", subGenreName := some "Indie" }]).Nodup
    ∧ ("Museum" ∈ (["Art"] : List String) ∨ ("Museum" : String) = "Museum") :=
  ⟨genres_dedup_amended.1 [{ segmentName := some "Music", genreName := some " Rock " },
               { genreName := some "Rock", subGenreName := some "Indie" }],
   genres_dedup_amended.2 ["Art"] true "Museum" (by decide)⟩

end LiveEvents
